import Mathlib

/-!
Shallow embedding of the rate-limited multi-account dispatch core of
`telegram_phone_checker.py`, together with proofs of the spec's testable
properties.

Python dictionaries with string keys are embedded as association lists
(`List (String × α)`) with Python's semantics: `dictGet?` finds the first
binding, `dictSet` updates an existing binding in place or appends a new
one, `dictGetD` is `dict.get(k, default)`.

Python integers are embedded as `Int`; file contents are embedded as
`Option (List Row)` (`none` = file absent); exceptions are embedded with
`Except String`; the random/timer side effects of pacing are embedded as
an explicit event trace.
-/

set_option autoImplicit false

namespace PhoneChecker

/-- First-match lookup in an association list (`dict[k]` / `k in dict`). -/
def dictGet? {α : Type} : List (String × α) → String → Option α
  | [], _ => none
  | (k', v') :: rest, k => if k' = k then some v' else dictGet? rest k

/-- Python `dict.get(k, default)`. -/
def dictGetD {α : Type} (d : List (String × α)) (k : String) (v₀ : α) : α :=
  (dictGet? d k).getD v₀

/-- Python `dict[k] = v`: update the existing binding in place, else append. -/
def dictSet {α : Type} : List (String × α) → String → α → List (String × α)
  | [], k, v => [(k, v)]
  | (k', v') :: rest, k, v =>
    if k' = k then (k, v) :: rest else (k', v') :: dictSet rest k v

@[simp] theorem dictGet?_nil {α : Type} (k : String) :
    dictGet? ([] : List (String × α)) k = none := rfl

@[simp] theorem dictGet?_set_self {α : Type} (d : List (String × α)) (k : String) (v : α) :
    dictGet? (dictSet d k v) k = some v := by
  induction d with
  | nil => simp [dictSet, dictGet?]
  | cons hd tl ih =>
    obtain ⟨k', v'⟩ := hd
    by_cases h : k' = k
    · simp [dictSet, dictGet?, h]
    · simp [dictSet, dictGet?, h, ih]

@[simp] theorem dictGet?_set_ne {α : Type} (d : List (String × α)) (k k' : String) (v : α)
    (h : k ≠ k') : dictGet? (dictSet d k v) k' = dictGet? d k' := by
  induction d with
  | nil => simp [dictSet, dictGet?, h]
  | cons hd tl ih =>
    obtain ⟨k₀, v₀⟩ := hd
    by_cases h₀ : k₀ = k
    · subst h₀; simp [dictSet, dictGet?, h]
    · simp [dictSet, dictGet?, h₀, ih]

@[simp] theorem dictGetD_set_self {α : Type} (d : List (String × α)) (k : String) (v v₀ : α) :
    dictGetD (dictSet d k v) k v₀ = v := by
  simp [dictGetD]

/-! ## Quota Store

`account_limits` is a dict from account phone number to a dict from ISO date
to a count: `Limits := phone ↦ (date ↦ count)`. -/

/-- Embeds the shape of `account_limits` (`Dict[str, Dict[str, int]]`). -/
abbrev Limits : Type := List (String × List (String × Int))

/-- `ACCOUNT_DAILY_LIMIT = 50`. -/
def ACCOUNT_DAILY_LIMIT : Int := 50

/-- The load-time normalization loop of `load_account_limits` (lines 57-60):
for every stored phone, if today is not among its recorded dates, its whole
record is replaced with `{today: 0}`. -/
def load_account_limits_normalize (today : String) (data : Limits) : Limits :=
  data.map (fun pr => (pr.1, if (dictGet? pr.2 today).isSome then pr.2 else [(today, 0)]))

/-- `AccountManager.get_account_limit`:
`self.account_limits.get(phone_number, {}).get(today, 0)`. -/
def get_account_limit (limits : Limits) (today phone_number : String) : Int :=
  dictGetD (dictGetD limits phone_number []) today 0

/-- `AccountManager.increment_account_limit`: create the phone entry and the
today entry when absent, then add `count`.  The trailing
`save_account_limits` call only performs I/O (it swallows its own errors and
returns nothing), so it does not affect the in-memory store. -/
def increment_account_limit (limits : Limits) (today phone_number : String)
    (count : Int) : Limits :=
  let limits₁ := if (dictGet? limits phone_number).isNone
    then dictSet limits phone_number [] else limits
  let record := dictGetD limits₁ phone_number []
  let record₁ := if (dictGet? record today).isNone
    then dictSet record today 0 else record
  let record₂ := dictSet record₁ today (dictGetD record₁ today 0 + count)
  dictSet limits₁ phone_number record₂

theorem dictGet?_normalize (today : String) (data : Limits) (phone : String) :
    dictGet? (load_account_limits_normalize today data) phone =
      (dictGet? data phone).map
        (fun rec => if (dictGet? rec today).isSome then rec else [(today, 0)]) := by
  induction data with
  | nil => rfl
  | cons hd tl ih =>
    obtain ⟨p, rec⟩ := hd
    by_cases h : p = phone
    · simp [load_account_limits_normalize, dictGet?, h]
    · simpa [load_account_limits_normalize, dictGet?, h] using ih

/-- Single-increment step: the stored count for the incremented
(phone, today) pair grows by exactly `count`. -/
theorem get_increment_self (limits : Limits) (today phone : String) (count : Int) :
    get_account_limit (increment_account_limit limits today phone count) today phone =
      get_account_limit limits today phone + count := by
  unfold increment_account_limit get_account_limit
  cases hp : dictGet? limits phone with
  | none =>
    simp only [hp, Option.isNone_none, if_pos rfl]
    simp [dictGetD, hp]
  | some record =>
    simp only [hp, Option.isNone_some, Bool.false_eq_true, if_false]
    cases ht : dictGet? record today with
    | none =>
      simp [dictGetD, hp, ht]
    | some c =>
      simp [dictGetD, hp, ht]

/-! ## Account Rotator -/

/-- The only field of an account dict that `get_next_account` consults and
that identifies the account downstream. -/
structure Account where
  phone_number : String
  deriving Repr, DecidableEq

/-- The fields of `AccountManager` that the rotation logic reads/writes. -/
structure AccountManagerState where
  accounts : List Account
  current_account_index : Nat
  account_limits : Limits

/-- The scan loop of `AccountManager.get_next_account` (lines 157-165),
unrolled over the list of offsets `range(n)`.  Python raises
`ZeroDivisionError` on `% 0` and `IndexError` on a bad index, so each
iteration is fallible; the loop body reads
`used = self.account_limits.get(phone, {}).get(today, 0)` which is exactly
`get_account_limit`. -/
def get_next_account_loop (s : AccountManagerState) (today : String) (batch_size : Int) :
    List Nat → Except String (Option (Account × AccountManagerState))
  | [] => .ok none
  | offset :: rest =>
    let n := s.accounts.length
    if n = 0 then .error "ZeroDivisionError: integer modulo by zero"
    else
      let idx := (s.current_account_index + offset) % n
      match s.accounts[idx]? with
      | none => .error "IndexError: list index out of range"
      | some account =>
        let used := get_account_limit s.account_limits today account.phone_number
        if used + batch_size ≤ ACCOUNT_DAILY_LIMIT then
          .ok (some (account, { s with current_account_index := (idx + 1) % n }))
        else
          get_next_account_loop s today batch_size rest

/-- `AccountManager.get_next_account`: scan at most `n` accounts starting at
the current rotation index; on success return the account and advance the
index one past it; after a full fruitless scan return `None`. -/
def get_next_account (s : AccountManagerState) (today : String) (batch_size : Int) :
    Except String (Option (Account × AccountManagerState)) :=
  get_next_account_loop s today batch_size (List.range s.accounts.length)

/-- An account is eligible for a batch when its usage today plus the batch
size stays within the daily limit (line 162). -/
def eligibleFor (s : AccountManagerState) (today : String) (batch_size : Int)
    (a : Account) : Prop :=
  get_account_limit s.account_limits today a.phone_number + batch_size ≤ ACCOUNT_DAILY_LIMIT

instance (s : AccountManagerState) (today : String) (batch_size : Int) (a : Account) :
    Decidable (eligibleFor s today batch_size a) := by
  unfold eligibleFor; infer_instance

/-- Every residue `i < n` is reached from `cur` by some offset below `n`. -/
theorem mod_cover (cur i n : Nat) (hn : 0 < n) (hi : i < n) :
    (cur + (i + n - cur % n) % n) % n = i := by
  have hc : cur % n < n := Nat.mod_lt _ hn
  calc (cur + (i + n - cur % n) % n) % n
      = (cur % n + (i + n - cur % n) % n) % n := by rw [Nat.mod_add_mod]
    _ = (cur % n + (i + n - cur % n)) % n := by rw [Nat.add_mod_mod]
    _ = (i + n) % n := by
        have : cur % n + (i + n - cur % n) = i + n := by omega
        rw [this]
    _ = i % n := Nat.add_mod_right i n
    _ = i := Nat.mod_eq_of_lt hi

/-- One unrolling of the scan loop when the account list is nonempty. -/
theorem get_next_account_loop_cons (s : AccountManagerState) (today : String)
    (batch_size : Int) (o : Nat) (rest : List Nat)
    (hn0 : s.accounts.length ≠ 0)
    (hidx : (s.current_account_index + o) % s.accounts.length < s.accounts.length) :
    get_next_account_loop s today batch_size (o :: rest) =
      if get_account_limit s.account_limits today
          (s.accounts[(s.current_account_index + o) % s.accounts.length]).phone_number
          + batch_size ≤ ACCOUNT_DAILY_LIMIT then
        .ok (some (s.accounts[(s.current_account_index + o) % s.accounts.length],
          { s with current_account_index :=
            ((s.current_account_index + o) % s.accounts.length + 1) % s.accounts.length }))
      else get_next_account_loop s today batch_size rest := by
  simp only [get_next_account_loop, if_neg hn0, List.getElem?_eq_getElem hidx]

theorem get_next_account_loop_none_iff (s : AccountManagerState) (today : String)
    (batch_size : Int) (hn : s.accounts ≠ []) (offs : List Nat) :
    get_next_account_loop s today batch_size offs = .ok none ↔
      ∀ o ∈ offs, ∀ a,
        s.accounts[(s.current_account_index + o) % s.accounts.length]? = some a →
        ¬ eligibleFor s today batch_size a := by
  have hn0 : s.accounts.length ≠ 0 := by
    simpa [List.length_eq_zero] using hn
  induction offs with
  | nil => simp [get_next_account_loop]
  | cons o rest ih =>
    have hidx : (s.current_account_index + o) % s.accounts.length < s.accounts.length :=
      Nat.mod_lt _ (Nat.pos_of_ne_zero hn0)
    rw [get_next_account_loop_cons s today batch_size o rest hn0 hidx]
    by_cases he : get_account_limit s.account_limits today
        (s.accounts[(s.current_account_index + o) % s.accounts.length]).phone_number
        + batch_size ≤ ACCOUNT_DAILY_LIMIT
    · rw [if_pos he]
      constructor
      · intro h; cases h
      · intro h
        exact absurd he
          (h o (List.mem_cons_self o rest) _ (List.getElem?_eq_getElem hidx))
    · rw [if_neg he]
      refine ih.trans ⟨fun h o' ho' a' ha' => ?_,
        fun h o' ho' a' ha' => h o' (List.mem_cons_of_mem _ ho') a' ha'⟩
      rcases List.mem_cons.mp ho' with rfl | ho'
      · rw [List.getElem?_eq_getElem hidx] at ha'
        cases (Option.some.injEq _ _).mp ha'
        exact he
      · exact h o' ho' a' ha'

theorem get_next_account_loop_some (s : AccountManagerState) (today : String)
    (batch_size : Int) (offs : List Nat) (a : Account) (s' : AccountManagerState)
    (h : get_next_account_loop s today batch_size offs = .ok (some (a, s'))) :
    ∃ idx, idx < s.accounts.length ∧ s.accounts[idx]? = some a ∧
      eligibleFor s today batch_size a ∧
      s' = { s with current_account_index := (idx + 1) % s.accounts.length } := by
  induction offs with
  | nil => cases h
  | cons o rest ih =>
    by_cases hn0 : s.accounts.length = 0
    · rw [get_next_account_loop, if_pos hn0] at h; cases h
    · have hidx : (s.current_account_index + o) % s.accounts.length < s.accounts.length :=
        Nat.mod_lt _ (Nat.pos_of_ne_zero hn0)
      rw [get_next_account_loop_cons s today batch_size o rest hn0 hidx] at h
      by_cases he : get_account_limit s.account_limits today
          (s.accounts[(s.current_account_index + o) % s.accounts.length]).phone_number
          + batch_size ≤ ACCOUNT_DAILY_LIMIT
      · rw [if_pos he] at h
        have hpair := (Option.some.injEq _ _).mp ((Except.ok.injEq _ _).mp h)
        refine ⟨(s.current_account_index + o) % s.accounts.length, hidx, ?_, ?_, ?_⟩
        · rw [List.getElem?_eq_getElem hidx, (Prod.mk.injEq _ _ _ _).mp hpair |>.1]
        · rw [← (Prod.mk.injEq _ _ _ _).mp hpair |>.1]; exact he
        · rw [← (Prod.mk.injEq _ _ _ _).mp hpair |>.2]
      · rw [if_neg he] at h
        exact ih h

/-- When the account at the current rotation index is eligible, it is the one
selected, and the index advances one past it. -/
theorem get_next_account_select_head (s : AccountManagerState) (today : String)
    (batch_size : Int) (a : Account)
    (hcur : s.current_account_index < s.accounts.length)
    (ha : s.accounts[s.current_account_index]? = some a)
    (he : get_account_limit s.account_limits today a.phone_number + batch_size ≤
      ACCOUNT_DAILY_LIMIT) :
    get_next_account s today batch_size = .ok (some (a,
      { s with current_account_index :=
        (s.current_account_index + 1) % s.accounts.length })) := by
  have hn0 : s.accounts.length ≠ 0 := by omega
  obtain ⟨rest, hrest⟩ : ∃ rest, List.range s.accounts.length = 0 :: rest := by
    obtain ⟨m, hm⟩ : ∃ m, s.accounts.length = m + 1 := ⟨s.accounts.length - 1, by omega⟩
    rw [hm, List.range_succ_eq_map]
    exact ⟨_, rfl⟩
  have hcurm : (s.current_account_index + 0) % s.accounts.length =
      s.current_account_index := by
    rw [Nat.add_zero]; exact Nat.mod_eq_of_lt hcur
  have hidx0 : (s.current_account_index + 0) % s.accounts.length < s.accounts.length := by
    rw [hcurm]; exact hcur
  unfold get_next_account
  rw [hrest, get_next_account_loop_cons s today batch_size 0 rest hn0 hidx0]
  have hga : s.accounts[(s.current_account_index + 0) % s.accounts.length] = a := by
    have h2 : s.accounts[(s.current_account_index + 0) % s.accounts.length]? = some a := by
      rw [hcurm]; exact ha
    exact Option.some.inj ((List.getElem?_eq_getElem hidx0).symm.trans h2)
  rw [hga, if_pos he, hcurm]

/-- C3: `get_next_account(batch_size)` returns `None` exactly when no account
is eligible, i.e. when every account's used-today count plus `batch_size`
exceeds the daily limit of 50; in particular (for nonnegative stored counts)
it returns `None` for any `batch_size` greater than 50.  The scan never
raises and inspects at most `N` accounts by construction (`range(n)`). -/
theorem get_next_account_exhaustion (s : AccountManagerState) (today : String)
    (batch_size : Int) :
    (get_next_account s today batch_size = .ok none ↔
      ∀ a ∈ s.accounts, ¬ eligibleFor s today batch_size a) ∧
    ((∀ a ∈ s.accounts, 0 ≤ get_account_limit s.account_limits today a.phone_number) →
      ACCOUNT_DAILY_LIMIT < batch_size → get_next_account s today batch_size = .ok none) := by
  have hiff : get_next_account s today batch_size = .ok none ↔
      ∀ a ∈ s.accounts, ¬ eligibleFor s today batch_size a := by
    by_cases hn : s.accounts = []
    · constructor
      · intro _ a ha; rw [hn] at ha; cases ha
      · intro _
        unfold get_next_account
        rw [hn]
        rfl
    · unfold get_next_account
      rw [get_next_account_loop_none_iff s today batch_size hn (List.range s.accounts.length)]
      have hpos : 0 < s.accounts.length := List.length_pos.mpr hn
      constructor
      · intro h a hmem
        obtain ⟨i, hi, hgi⟩ := List.getElem_of_mem hmem
        have ho : (i + s.accounts.length - s.current_account_index % s.accounts.length)
            % s.accounts.length ∈ List.range s.accounts.length :=
          List.mem_range.mpr (Nat.mod_lt _ hpos)
        have := h _ ho a
        rw [mod_cover s.current_account_index i s.accounts.length hpos hi] at this
        exact this (by rw [List.getElem?_eq_getElem hi, hgi])
      · intro h o _ a ha
        have hmem : a ∈ s.accounts := by
          have hidx : (s.current_account_index + o) % s.accounts.length <
              s.accounts.length := Nat.mod_lt _ hpos
          rw [List.getElem?_eq_getElem hidx] at ha
          rw [← Option.some.inj ha]
          exact List.getElem_mem _
        exact h a hmem
  refine ⟨hiff, fun hpos hbs => hiff.mpr fun a ha helig => ?_⟩
  have h0 := hpos a ha
  have h1 : get_account_limit s.account_limits today a.phone_number + batch_size ≤
      ACCOUNT_DAILY_LIMIT := helig
  linarith

/-- Witness for C3: three accounts at 45 used today cannot serve a batch of
size 10 (45 + 10 > 50), and a batch of size 51 exceeds the daily limit
outright; both scans return `None`. -/
theorem get_next_account_exhaustion_witness :
    get_next_account
      ⟨[⟨"+1"⟩, ⟨"+2"⟩, ⟨"+3"⟩], 0,
        [("+1", [("2026-10-12", 45)]), ("+2", [("2026-10-12", 45)]),
         ("+3", [("2026-10-12", 45)])]⟩ "2026-10-12" 10 = .ok none ∧
    get_next_account
      ⟨[⟨"+1"⟩, ⟨"+2"⟩, ⟨"+3"⟩], 0,
        [("+1", [("2026-10-12", 45)]), ("+2", [("2026-10-12", 45)]),
         ("+3", [("2026-10-12", 45)])]⟩ "2026-10-12" 51 = .ok none :=
  ⟨(get_next_account_exhaustion _ "2026-10-12" 10).1.mpr (by decide),
   (get_next_account_exhaustion _ "2026-10-12" 51).2 (by decide) (by decide)⟩

/-- C4: selection is strict round-robin with skip-on-select: a returned
account is eligible, sits at some index `idx` of the list, and the rotation
index is set to `(idx + 1) % n`; for three accounts `A`, `B`, `C` all with
enough remaining capacity and rotation index 0, four consecutive calls with
no intervening increments return `A`, `B`, `C`, `A` and move the index
through 1, 2, 0, 1. -/
theorem get_next_account_round_robin (s : AccountManagerState) (today : String)
    (batch_size : Int) :
    (∀ a s', get_next_account s today batch_size = .ok (some (a, s')) →
      ∃ idx, idx < s.accounts.length ∧ s.accounts[idx]? = some a ∧
        eligibleFor s today batch_size a ∧
        s' = { s with current_account_index := (idx + 1) % s.accounts.length }) ∧
    (∀ A B C : Account,
      s.accounts = [A, B, C] → s.current_account_index = 0 →
      eligibleFor s today batch_size A →
      eligibleFor s today batch_size B →
      eligibleFor s today batch_size C →
      get_next_account s today batch_size =
        .ok (some (A, { s with current_account_index := 1 })) ∧
      get_next_account { s with current_account_index := 1 } today batch_size =
        .ok (some (B, { s with current_account_index := 2 })) ∧
      get_next_account { s with current_account_index := 2 } today batch_size =
        .ok (some (C, { s with current_account_index := 0 })) ∧
      get_next_account { s with current_account_index := 0 } today batch_size =
        .ok (some (A, { s with current_account_index := 1 }))) := by
  constructor
  · intro a s' h
    exact get_next_account_loop_some s today batch_size _ a s' h
  · intro A B C hacc hcur hA hB hC
    have hlen : s.accounts.length = 3 := by rw [hacc]; rfl
    refine ⟨?_, ?_, ?_, ?_⟩
    · have := get_next_account_select_head s today batch_size A
        (by rw [hcur, hlen]; omega)
        (by rw [hcur, hacc]; rfl) hA
      rw [hcur, hlen] at this
      simpa using this
    · have := get_next_account_select_head { s with current_account_index := 1 }
        today batch_size B (by show 1 < s.accounts.length; rw [hlen]; omega)
        (by show s.accounts[1]? = some B; rw [hacc]; rfl) hB
      rw [show ({ s with current_account_index := 1 } : AccountManagerState).accounts.length
        = 3 from hlen] at this
      simpa using this
    · have := get_next_account_select_head { s with current_account_index := 2 }
        today batch_size C (by show 2 < s.accounts.length; rw [hlen]; omega)
        (by show s.accounts[2]? = some C; rw [hacc]; rfl) hC
      rw [show ({ s with current_account_index := 2 } : AccountManagerState).accounts.length
        = 3 from hlen] at this
      simpa using this
    · have := get_next_account_select_head { s with current_account_index := 0 }
        today batch_size A (by show 0 < s.accounts.length; rw [hlen]; omega)
        (by show s.accounts[0]? = some A; rw [hacc]; rfl) hA
      rw [show ({ s with current_account_index := 0 } : AccountManagerState).accounts.length
        = 3 from hlen] at this
      simpa using this

/-- Witness for C4: three fresh accounts, batch size 1: the four calls yield
`A`, `B`, `C`, `A`, and the returned account of the first call sits at index
0 with the rotation index advanced to 1. -/
theorem get_next_account_round_robin_witness :
    (get_next_account ⟨[⟨"+1"⟩, ⟨"+2"⟩, ⟨"+3"⟩], 0, []⟩ "2026-10-12" 1 =
      .ok (some (⟨"+1"⟩, ⟨[⟨"+1"⟩, ⟨"+2"⟩, ⟨"+3"⟩], 1, []⟩)) ∧
    get_next_account ⟨[⟨"+1"⟩, ⟨"+2"⟩, ⟨"+3"⟩], 1, []⟩ "2026-10-12" 1 =
      .ok (some (⟨"+2"⟩, ⟨[⟨"+1"⟩, ⟨"+2"⟩, ⟨"+3"⟩], 2, []⟩)) ∧
    get_next_account ⟨[⟨"+1"⟩, ⟨"+2"⟩, ⟨"+3"⟩], 2, []⟩ "2026-10-12" 1 =
      .ok (some (⟨"+3"⟩, ⟨[⟨"+1"⟩, ⟨"+2"⟩, ⟨"+3"⟩], 0, []⟩)) ∧
    get_next_account ⟨[⟨"+1"⟩, ⟨"+2"⟩, ⟨"+3"⟩], 0, []⟩ "2026-10-12" 1 =
      .ok (some (⟨"+1"⟩, ⟨[⟨"+1"⟩, ⟨"+2"⟩, ⟨"+3"⟩], 1, []⟩))) ∧
    (∃ idx, idx < 3 ∧ ([⟨"+1"⟩, ⟨"+2"⟩, ⟨"+3"⟩] : List Account)[idx]? = some ⟨"+1"⟩ ∧
      eligibleFor ⟨[⟨"+1"⟩, ⟨"+2"⟩, ⟨"+3"⟩], 0, []⟩ "2026-10-12" 1 ⟨"+1"⟩ ∧
      (⟨[⟨"+1"⟩, ⟨"+2"⟩, ⟨"+3"⟩], 1, []⟩ : AccountManagerState) =
        ⟨[⟨"+1"⟩, ⟨"+2"⟩, ⟨"+3"⟩], (idx + 1) % 3, []⟩) := by
  have hchain := (get_next_account_round_robin ⟨[⟨"+1"⟩, ⟨"+2"⟩, ⟨"+3"⟩], 0, []⟩
    "2026-10-12" 1).2 ⟨"+1"⟩ ⟨"+2"⟩ ⟨"+3"⟩ rfl rfl (by decide) (by decide) (by decide)
  refine ⟨⟨hchain.1, hchain.2.1, hchain.2.2.1, hchain.2.2.2⟩, ?_⟩
  exact (get_next_account_round_robin ⟨[⟨"+1"⟩, ⟨"+2"⟩, ⟨"+3"⟩], 0, []⟩
    "2026-10-12" 1).1 ⟨"+1"⟩ ⟨[⟨"+1"⟩, ⟨"+2"⟩, ⟨"+3"⟩], 1, []⟩ hchain.1

/-- C10: with an empty account list the scan loop never executes, so
`get_next_account` returns `None` for every batch size without evaluating the
modulo-by-zero indexing expression (no exception). -/
theorem get_next_account_empty_accounts (cur : Nat) (limits : Limits)
    (today : String) (batch_size : Int) :
    get_next_account ⟨[], cur, limits⟩ today batch_size = .ok none := rfl

/-- C5: on load, every stored account whose record lacks today's date has its
record replaced by `{today: 0}`, so its used count for today reads as 0; an
account absent from the store also reads as 0, as does any (account, date)
pair with no entry. -/
theorem daily_reset (today : String) (data : Limits) (phone : String) :
    (∀ rec, dictGet? data phone = some rec → dictGet? rec today = none →
      dictGet? (load_account_limits_normalize today data) phone = some [(today, 0)] ∧
      get_account_limit (load_account_limits_normalize today data) today phone = 0) ∧
    (dictGet? data phone = none →
      get_account_limit (load_account_limits_normalize today data) today phone = 0) ∧
    (∀ limits : Limits,
      (dictGet? limits phone = none → get_account_limit limits today phone = 0) ∧
      (∀ rec, dictGet? limits phone = some rec → dictGet? rec today = none →
        get_account_limit limits today phone = 0)) := by
  refine ⟨fun rec hrec ht => ?_, fun h => ?_, fun limits => ⟨fun h => ?_, fun rec hrec ht => ?_⟩⟩
  · have hnorm : dictGet? (load_account_limits_normalize today data) phone =
        some [(today, 0)] := by
      rw [dictGet?_normalize, hrec]
      simp [ht]
    refine ⟨hnorm, ?_⟩
    simp [get_account_limit, dictGetD, hnorm, dictGet?]
  · simp [get_account_limit, dictGetD, dictGet?_normalize, h]
  · simp [get_account_limit, dictGetD, h]
  · simp [get_account_limit, dictGetD, hrec, ht]

/-- Witness for C5: a store holding yesterday's count 45 for account `+1`
reads as 0 today after load normalization, and an unknown account reads 0. -/
theorem daily_reset_witness :
    dictGet? [("+1", [("2026-10-11", 45)])] "+1" = some [("2026-10-11", (45 : Int))] ∧
    dictGet? [("2026-10-11", (45 : Int))] "2026-10-12" = none ∧
    dictGet? (load_account_limits_normalize "2026-10-12" [("+1", [("2026-10-11", 45)])])
      "+1" = some [("2026-10-12", 0)] ∧
    get_account_limit (load_account_limits_normalize "2026-10-12"
      [("+1", [("2026-10-11", 45)])]) "2026-10-12" "+1" = 0 ∧
    get_account_limit (load_account_limits_normalize "2026-10-12"
      [("+1", [("2026-10-11", 45)])]) "2026-10-12" "+2" = 0 := by
  have h1 := (daily_reset "2026-10-12" [("+1", [("2026-10-11", 45)])] "+1").1
    [("2026-10-11", 45)] (by decide) (by decide)
  have h2 := (daily_reset "2026-10-12" [("+1", [("2026-10-11", 45)])] "+2").2.1 (by decide)
  exact ⟨by decide, by decide, h1.1, h1.2, h2⟩

/-- C6: quota monotonicity: a sequence of increments with deltas `ds` on a
fixed (account, date) raises `get_account_limit` by exactly `ds.sum`;
starting from an absent entry it ends at exactly `ds.sum`. -/
theorem quota_monotonicity (limits : Limits) (today phone : String) (ds : List Int) :
    get_account_limit
        (ds.foldl (fun l d => increment_account_limit l today phone d) limits)
        today phone =
      get_account_limit limits today phone + ds.sum ∧
    (dictGet? limits phone = none →
      get_account_limit
        (ds.foldl (fun l d => increment_account_limit l today phone d) limits)
        today phone = ds.sum) := by
  have hmain : ∀ (ds : List Int) (l : Limits),
      get_account_limit (ds.foldl (fun l d => increment_account_limit l today phone d) l)
        today phone = get_account_limit l today phone + ds.sum := by
    intro ds
    induction ds with
    | nil => intro l; simp
    | cons d tl ih =>
      intro l
      rw [List.foldl_cons, ih, get_increment_self, List.sum_cons]
      ring
  refine ⟨hmain ds limits, fun h => ?_⟩
  have h0 : get_account_limit limits today phone = 0 := by
    simp [get_account_limit, dictGetD, h]
  rw [hmain ds limits, h0, zero_add]

/-- Witness for C6: incrementing a fresh store by 3 then 4 for one account
on one date yields a used count of 7 = sum of the deltas. -/
theorem quota_monotonicity_witness :
    dictGet? ([] : Limits) "+1" = none ∧
    get_account_limit (([3, 4] : List Int).foldl
      (fun l d => increment_account_limit l "2026-10-12" "+1" d) [])
      "2026-10-12" "+1" = List.sum [3, 4] :=
  ⟨rfl, (quota_monotonicity [] "2026-10-12" "+1" [3, 4]).2 rfl⟩

/-! ## Lookup results and batch processing (`validate_users`) -/

/-- The whitespace characters removed by `re.sub(r"\s+", "", phone)`
(the ASCII part of Python's `\s`; the claims only exercise these). -/
def isPythonSpace (c : Char) : Bool :=
  c = ' ' || c = '\t' || c = '\n' || c = '\r' || c = '\x0b' || c = '\x0c'

/-- `clean_phone = re.sub(r"\s+", "", phone)`: strip all whitespace. -/
def cleanPhone (phone : String) : String :=
  String.mk (phone.data.filter (fun c => !isPythonSpace c))

/-- The profile fields that `parse_and_save_results` writes for a found
number, already stringified the way the CSV writer renders them
(`usernames` holds the serialized list from line 431). -/
structure Profile where
  id : String
  username : String
  usernames : String
  first_name : String
  last_name : String
  fake : String
  verified : String
  premium : String
  mutual_contact : String
  bot : String
  bot_chat_history : String
  restricted : String
  restriction_reason : String
  user_was_online : String
  phone : String
  deriving Repr, DecidableEq

/-- The dict `get_names` returns for one number: either a populated profile
or a dict carrying an `error` key (every path of `get_names` sets exactly
one of the two shapes). -/
inductive UserData where
  | found (p : Profile)
  | errorResult (msg : String)
  deriving Repr, DecidableEq

/-- Outcome of one `get_names` call as seen by `validate_users`: either the
internal try/except caught everything and a result dict comes back, or an
exception escapes the call (e.g. a `BaseException` the handler at lines
326-330 does not catch) and propagates out of `validate_users`. -/
inductive LookupOutcome where
  | caught (u : UserData)
  | escape (msg : String)

/-- Observable pacing/lookup events of `validate_users`: a lookup invocation
for a (cleaned) number, or the suspension
`asyncio.sleep(random.uniform(pause_min, pause_max))` — a uniformly random
duration in `[pause_min, pause_max]`, recorded here with its bounds. -/
inductive PacingEvent where
  | lookupCall (phone : String)
  | sleepUniform (pause_min pause_max : Int)
  deriving Repr, DecidableEq

/-- The loop of `validate_users` (lines 347-357), with the 1-based index `i`
of `enumerate(phone_numbers, 1)` and `total = len(phone_numbers)` explicit.
Per iteration: clean the number; if nonempty and not already in the result
dict, perform the lookup (which may escape, discarding the local partial
result dict) and then sleep when `i < total`. -/
def validate_users_go (look : String → LookupOutcome) (pause_min pause_max : Int)
    (total : Nat) :
    Nat → List String → List (String × UserData) →
      Except String (List (String × UserData)) × List PacingEvent
  | _, [], result => (.ok result, [])
  | i, phone :: rest, result =>
    let clean_phone := cleanPhone phone
    if clean_phone ≠ "" ∧ (dictGet? result clean_phone).isNone then
      match look clean_phone with
      | .escape msg => (.error msg, [.lookupCall clean_phone])
      | .caught u =>
        let next := validate_users_go look pause_min pause_max total (i + 1) rest
          (dictSet result clean_phone u)
        (next.1,
          .lookupCall clean_phone ::
            ((if i < total then [PacingEvent.sleepUniform pause_min pause_max] else []) ++
              next.2))
    else
      validate_users_go look pause_min pause_max total (i + 1) rest result

/-- `validate_users`: process a batch starting from an empty result dict,
returning the result dict (or the escaping exception) and the trace of
lookups and inter-request sleeps. -/
def validate_users (look : String → LookupOutcome) (pause_min pause_max : Int)
    (phone_numbers : List String) :
    Except String (List (String × UserData)) × List PacingEvent :=
  validate_users_go look pause_min pause_max phone_numbers.length 1 phone_numbers []

/-! ## CSV output (`write_header_if_needed`, `parse_and_save_results`) -/

/-- One CSV row. -/
abbrev Row : Type := List String

/-- The header row written at lines 409-415. -/
def header_row : Row :=
  ["phone_number", "found", "id", "username", "usernames",
   "first_name", "last_name", "fake", "verified", "premium",
   "mutual_contact", "bot", "bot_chat_history", "restricted",
   "restriction_reason", "user_was_online", "phone", "error",
   "checked_by_account"]

/-- The row built per result at lines 426-445: a "Yes" row with the profile
fields and an empty error column, or a "No" row with only the error
message. -/
def resultRow (phone : String) (u : UserData) (checked_by : String) : Row :=
  match u with
  | .found p =>
    [phone, "Yes", p.id, p.username, p.usernames, p.first_name, p.last_name,
     p.fake, p.verified, p.premium, p.mutual_contact, p.bot,
     p.bot_chat_history, p.restricted, p.restriction_reason,
     p.user_was_online, p.phone, "", checked_by]
  | .errorResult msg =>
    [phone, "No", "", "", "", "", "", "", "", "", "", "", "", "", "", "", "",
     msg, checked_by]

/-- The output CSV as a value: `none` = file absent, `some rows` = its
rows. -/
abbrev OutFile : Type := Option (List Row)

/-- `write_header_if_needed`: write the header only when the file is absent
or empty, otherwise leave the contents alone. -/
def write_header_if_needed (file : OutFile) : OutFile :=
  match file with
  | none => some [header_row]
  | some [] => some [header_row]
  | some rows => some rows

/-- `parse_and_save_results`: ensure the header, then append one row per
result in open-mode `'a'`.  A failing append (`write_fails`) is caught by
the bare `except` at line 447 and only logged: the function returns normally
either way and signals nothing to its caller. -/
def parse_and_save_results (write_fails : Bool)
    (results_data : List (String × UserData)) (checked_by : String)
    (file : OutFile) : OutFile :=
  let file₁ := write_header_if_needed file
  if write_fails then file₁
  else some ((file₁.getD []) ++
    results_data.map (fun pr => resultRow pr.1 pr.2 checked_by))

/-! ## The per-batch commit step of `main` (lines 512-530) -/

/-- One batch iteration of `main` after an account has been selected and a
client obtained: run `validate_users`; an escaping exception propagates
(`.error`); otherwise, when the result dict is nonempty, persist the results
and increment the account's quota by `len(batch)` — unconditionally in that
order, with no success signal from persistence. -/
def process_batch (look : String → LookupOutcome) (write_fails : Bool)
    (today account_phone : String) (pause_min pause_max : Int)
    (batch : List String) (file : OutFile) (limits : Limits) :
    Except String (OutFile × Limits) :=
  match (validate_users look pause_min pause_max batch).1 with
  | .error e => .error e
  | .ok result_data =>
    if result_data.isEmpty then
      .ok (file, limits)
    else
      let file₁ := parse_and_save_results write_fails result_data account_phone file
      let limits₁ := increment_account_limit limits today account_phone (batch.length : Int)
      .ok (file₁, limits₁)

/-- The same step as observed after `main`'s blanket `except` at line 544:
an exception aborts the loop, and the output file and quota store are left
exactly as they were before the batch (the partial result dict was local to
`validate_users` and is gone). -/
def process_batch_caught (look : String → LookupOutcome) (write_fails : Bool)
    (today account_phone : String) (pause_min pause_max : Int)
    (batch : List String) (file : OutFile) (limits : Limits) :
    OutFile × Limits :=
  match process_batch look write_fails today account_phone pause_min pause_max
      batch file limits with
  | .error _ => (file, limits)
  | .ok r => r

/-! ## The inter-batch pacing of `main` (lines 490-536) -/

/-- Batch-level events of the dispatch loop: running batch `i` (1-based) and
the fixed inter-batch suspension `asyncio.sleep(batch_pause)`. -/
inductive DispatchEvent where
  | runBatch (i : Nat)
  | sleepBatchPause (secs : Nat)
  deriving Repr, DecidableEq

/-- The `for i, batch in enumerate(batches, 1)` loop skeleton: after each
batch, sleep `batch_pause` iff `i < len(batches)` (line 533).  `rem` is the
number of batches still to run. -/
def batch_loop_trace (batch_pause total : Nat) : Nat → Nat → List DispatchEvent
  | _, 0 => []
  | i, rem + 1 =>
    .runBatch i ::
      ((if i < total then [DispatchEvent.sleepBatchPause batch_pause] else []) ++
        batch_loop_trace batch_pause total (i + 1) rem)

/-- The batch-level trace of a full run over `total` batches. -/
def main_batches_trace (batch_pause total : Nat) : List DispatchEvent :=
  batch_loop_trace batch_pause total 1 total

/-! ## Canonical pacing shapes -/

/-- The shape the spec describes for intra-batch pacing: one lookup per
(cleaned) number with a sleep before every lookup except the first. -/
def interRequestTrace (pause_min pause_max : Int) : List String → List PacingEvent
  | [] => []
  | [p] => [.lookupCall p]
  | p :: q :: rest =>
    .lookupCall p :: .sleepUniform pause_min pause_max ::
      interRequestTrace pause_min pause_max (q :: rest)

/-- The shape the spec describes for inter-batch pacing: batches `i`,
`i+1`, ... with a fixed sleep between consecutive batches and none after the
last; `rem` batches remain. -/
def interBatchTrace (batch_pause : Nat) : Nat → Nat → List DispatchEvent
  | _, 0 => []
  | i, 1 => [.runBatch i]
  | i, rem + 2 =>
    .runBatch i :: .sleepBatchPause batch_pause ::
      interBatchTrace batch_pause (i + 1) (rem + 1)

/-! ## Step lemmas for the `validate_users` loop -/

theorem validate_users_go_nil (look : String → LookupOutcome)
    (pause_min pause_max : Int) (total i : Nat) (res : List (String × UserData)) :
    validate_users_go look pause_min pause_max total i [] res = (.ok res, []) := rfl

theorem validate_users_go_cons_proc (look : String → LookupOutcome)
    (pause_min pause_max : Int) (total i : Nat) (phone : String)
    (rest : List String) (res : List (String × UserData))
    (h1 : cleanPhone phone ≠ "") (h2 : dictGet? res (cleanPhone phone) = none) :
    validate_users_go look pause_min pause_max total i (phone :: rest) res =
      match look (cleanPhone phone) with
      | .escape msg => (.error msg, [.lookupCall (cleanPhone phone)])
      | .caught u =>
        let next := validate_users_go look pause_min pause_max total (i + 1) rest
          (dictSet res (cleanPhone phone) u)
        (next.1,
          .lookupCall (cleanPhone phone) ::
            ((if i < total then [PacingEvent.sleepUniform pause_min pause_max] else []) ++
              next.2)) := by
  rw [validate_users_go]
  rw [if_pos ⟨h1, by rw [h2]; rfl⟩]

theorem validate_users_go_cons_skip (look : String → LookupOutcome)
    (pause_min pause_max : Int) (total i : Nat) (phone : String)
    (rest : List String) (res : List (String × UserData))
    (h : ¬ (cleanPhone phone ≠ "" ∧ (dictGet? res (cleanPhone phone)).isNone)) :
    validate_users_go look pause_min pause_max total i (phone :: rest) res =
      validate_users_go look pause_min pause_max total (i + 1) rest res := by
  rw [validate_users_go, if_neg h]

/-- When no number of the batch is skipped (all cleaned forms nonempty and
pairwise distinct, none already in the accumulated result dict) and every
lookup is caught, the loop's trace is exactly one lookup per number with a
sleep after each one except the last raw element. -/
theorem validate_users_go_trace (look : String → UserData) (pause_min pause_max : Int)
    (total : Nat) :
    ∀ (ps : List String) (i : Nat) (res : List (String × UserData)),
      i + ps.length = total + 1 →
      (∀ p ∈ ps, cleanPhone p ≠ "" ∧ dictGet? res (cleanPhone p) = none) →
      (ps.map cleanPhone).Nodup →
      (validate_users_go (fun p => .caught (look p)) pause_min pause_max total i ps res).2 =
        interRequestTrace pause_min pause_max (ps.map cleanPhone) := by
  intro ps
  induction ps with
  | nil => intro i res _ _ _; rfl
  | cons p rest ih =>
    intro i res hlen hok hnodup
    have hp := hok p (List.mem_cons_self p rest)
    rw [validate_users_go_cons_proc _ pause_min pause_max total i p rest res hp.1 hp.2]
    simp only [List.length_cons] at hlen
    cases rest with
    | nil =>
      have hit : ¬ (i < total) := by simp at hlen; omega
      simp [validate_users_go_nil, hit, interRequestTrace]
    | cons q qs =>
      have hit : i < total := by simp at hlen; omega
      have hih := ih (i + 1) (dictSet res (cleanPhone p) (look (cleanPhone p)))
        (by simp only [List.length_cons] at hlen ⊢; omega)
        (by
          intro r hr
          have h2 := hok r (List.mem_cons_of_mem _ hr)
          refine ⟨h2.1, ?_⟩
          have hneq : cleanPhone p ≠ cleanPhone r := by
            intro hcontra
            have hpnotin := (List.nodup_cons.mp hnodup).1
            exact hpnotin (hcontra ▸ List.mem_map_of_mem cleanPhone hr)
          rw [dictGet?_set_ne res _ _ _ hneq]
          exact h2.2)
        ((List.nodup_cons.mp hnodup).2)
      simp only [List.map_cons] at hih ⊢
      rw [interRequestTrace]
      simp [hit, hih]

theorem batch_loop_trace_eq (batch_pause total : Nat) :
    ∀ (rem i : Nat), i + rem = total + 1 →
      batch_loop_trace batch_pause total i rem = interBatchTrace batch_pause i rem := by
  intro rem
  induction rem with
  | zero => intro i _; rfl
  | succ r ihr =>
    intro i hi
    cases r with
    | zero =>
      have hit : ¬ (i < total) := by omega
      simp [batch_loop_trace, interBatchTrace, hit]
    | succ r' =>
      have hit : i < total := by omega
      rw [batch_loop_trace, if_pos hit, ihr (i + 1) (by omega), interBatchTrace]
      simp

/-! ## Rows never collide with the header -/

theorem resultRow_ne_header (phone : String) (u : UserData) (checked_by : String) :
    resultRow phone u checked_by ≠ header_row := by
  cases u with
  | found p =>
    intro h
    have := congrArg (fun l => l[1]?) h
    simp [resultRow, header_row] at this
  | errorResult m =>
    intro h
    have := congrArg (fun l => l[1]?) h
    simp [resultRow, header_row] at this

theorem count_header_map (rs : List (String × UserData)) (checked_by : String) :
    (rs.map (fun pr => resultRow pr.1 pr.2 checked_by)).count header_row = 0 := by
  rw [List.count_eq_zero]
  intro hmem
  obtain ⟨pr, _, heq⟩ := List.mem_map.mp hmem
  exact resultRow_ne_header pr.1 pr.2 checked_by heq

/-- Evaluation of `validate_users` on a batch of two identical numbers: one
lookup, one result entry — and a trailing inter-request sleep. -/
theorem validate_users_pair_dup (look : String → UserData)
    (pause_min pause_max : Int) :
    validate_users (fun p => .caught (look p)) pause_min pause_max
        ["+1555000111", "+1555000111"] =
      (.ok [("+1555000111", look "+1555000111")],
       [.lookupCall "+1555000111", .sleepUniform pause_min pause_max]) := by
  have hp : cleanPhone "+1555000111" = "+1555000111" := by decide
  unfold validate_users
  rw [show (["+1555000111", "+1555000111"] : List String).length = 2 from rfl]
  rw [validate_users_go_cons_proc _ pause_min pause_max 2 1 "+1555000111"
    ["+1555000111"] [] (by rw [hp]; decide) rfl]
  simp only [hp]
  rw [validate_users_go_cons_skip _ pause_min pause_max 2 (1 + 1) "+1555000111" []
    (dictSet [] "+1555000111" (look "+1555000111"))
    (by rw [hp]; simp [dictSet, dictGet?])]
  rw [validate_users_go_nil]
  simp [dictSet]

/-- Evaluation of `validate_users` on a singleton batch: one lookup and no
sleep. -/
theorem validate_users_single (look : String → UserData)
    (pause_min pause_max : Int) :
    validate_users (fun p => .caught (look p)) pause_min pause_max
        ["+1555000111"] =
      (.ok [("+1555000111", look "+1555000111")],
       [.lookupCall "+1555000111"]) := by
  have hp : cleanPhone "+1555000111" = "+1555000111" := by decide
  unfold validate_users
  rw [show (["+1555000111"] : List String).length = 1 from rfl]
  rw [validate_users_go_cons_proc _ pause_min pause_max 1 1 "+1555000111" [] []
    (by rw [hp]; decide) rfl]
  simp only [hp]
  rw [validate_users_go_nil]
  simp [dictSet]

/-! ## Claim theorems for the batch-processing half -/

/-- C7: numbers are normalized by stripping whitespace and de-duplicated
within the batch only: the batch `["+1555000111", "+1555000111"]` performs
exactly one lookup and yields exactly one result entry, which persists as
exactly one row; a later, separate batch for the same number performs its
own lookup again (no cross-batch memory). -/
theorem dedup_within_batch (look : String → UserData) (pause_min pause_max : Int)
    (checked_by : String) :
    (validate_users (fun p => .caught (look p)) pause_min pause_max
        ["+1555000111", "+1555000111"]).1 =
      .ok [("+1555000111", look "+1555000111")] ∧
    (validate_users (fun p => .caught (look p)) pause_min pause_max
        ["+1555000111", "+1555000111"]).2.count (.lookupCall "+1555000111") = 1 ∧
    parse_and_save_results false [("+1555000111", look "+1555000111")] checked_by
        (some [header_row]) =
      some [header_row, resultRow "+1555000111" (look "+1555000111") checked_by] ∧
    (validate_users (fun p => .caught (look p)) pause_min pause_max
        ["+1555000111"]).2.count (.lookupCall "+1555000111") = 1 := by
  refine ⟨?_, ?_, ?_, ?_⟩
  · rw [validate_users_pair_dup]
  · rw [validate_users_pair_dup]
    simp [List.count_cons]
  · simp [parse_and_save_results, write_header_if_needed]
  · rw [validate_users_single]
    simp [List.count_cons]

/-- C8 counterexample: the sleep decision uses the position in the *raw*
batch (`i < len(phone_numbers)` at line 354), not the position among
performed lookups, so the batch `["+1555000111", "+1555000111"]` — whose
second entry is skipped as a duplicate — performs a single lookup and then
still sleeps: the trace is not of the shape "a delay before every lookup
except the first" (which for one lookup means no delay at all). -/
theorem inter_request_delay_cex :
    (validate_users (fun _ => .caught (.errorResult "e")) 120 180
        ["+1555000111", "+1555000111"]).2 =
      [.lookupCall "+1555000111", .sleepUniform 120 180] ∧
    (validate_users (fun _ => .caught (.errorResult "e")) 120 180
        ["+1555000111", "+1555000111"]).2 ≠
      interRequestTrace 120 180 ["+1555000111"] := by
  exact ⟨by decide, by decide⟩

/-- C8 amended: for batches in which no entry is skipped (all cleaned forms
nonempty and pairwise distinct), the inter-request suspension — recorded
with its uniform-random bounds `[pause_min, pause_max]` — occurs exactly
before every lookup except the first; a skipped trailing entry additionally
leaves one delay after the last lookup (see the counterexample).  The
inter-batch delay is the fixed `batch_pause`, applied between consecutive
batches and skipped after the final batch. -/
theorem pacing_structure (look : String → UserData) (pause_min pause_max : Int)
    (batch : List String) (batch_pause total : Nat)
    (hclean : ∀ p ∈ batch, cleanPhone p ≠ "")
    (hnodup : (batch.map cleanPhone).Nodup) :
    (validate_users (fun p => .caught (look p)) pause_min pause_max batch).2 =
      interRequestTrace pause_min pause_max (batch.map cleanPhone) ∧
    main_batches_trace batch_pause total = interBatchTrace batch_pause 1 total := by
  constructor
  · unfold validate_users
    exact validate_users_go_trace look pause_min pause_max batch.length batch 1 []
      (by omega) (fun p hp => ⟨hclean p hp, rfl⟩) hnodup
  · exact batch_loop_trace_eq batch_pause total total 1 (by omega)

/-- Witness for C8: a two-number batch (the second with surrounding
whitespace to exercise normalization) paces as lookup, sleep, lookup; three
batches pace as run, sleep, run, sleep, run. -/
theorem pacing_structure_witness :
    (∀ p ∈ (["+11", " +12 "] : List String), cleanPhone p ≠ "") ∧
    ((["+11", " +12 "] : List String).map cleanPhone).Nodup ∧
    (validate_users (fun _ => .caught (.errorResult "e")) 120 180
        ["+11", " +12 "]).2 = interRequestTrace 120 180 ["+11", "+12"] ∧
    main_batches_trace 120 3 = interBatchTrace 120 1 3 := by
  have h := pacing_structure (fun _ => .errorResult "e") 120 180 ["+11", " +12 "] 120 3
    (by decide) (by decide)
  refine ⟨by decide, by decide, ?_, h.2⟩
  have hmap : (["+11", " +12 "] : List String).map cleanPhone = ["+11", "+12"] := by decide
  rw [← hmap]
  exact h.1

/-- C9: the header is written only to an absent or empty file; rows are
always appended after existing content; composing two runs on the same
(initially absent) file yields the header once followed by the first run's
rows then the second run's rows, with no duplicated header. -/
theorem output_append_invariant (r1 r2 : List (String × UserData))
    (cb1 cb2 : String) :
    write_header_if_needed none = some [header_row] ∧
    write_header_if_needed (some []) = some [header_row] ∧
    (∀ (row : Row) (rows : List Row),
      write_header_if_needed (some (row :: rows)) = some (row :: rows)) ∧
    (∀ (row : Row) (rows : List Row),
      parse_and_save_results false r1 cb1 (some (row :: rows)) =
        some ((row :: rows) ++ r1.map (fun pr => resultRow pr.1 pr.2 cb1))) ∧
    parse_and_save_results false r2 cb2 (parse_and_save_results false r1 cb1 none) =
      some (header_row :: (r1.map (fun pr => resultRow pr.1 pr.2 cb1) ++
        r2.map (fun pr => resultRow pr.1 pr.2 cb2))) ∧
    (header_row :: (r1.map (fun pr => resultRow pr.1 pr.2 cb1) ++
        r2.map (fun pr => resultRow pr.1 pr.2 cb2))).count header_row = 1 := by
  refine ⟨rfl, rfl, fun row rows => rfl, fun row rows => ?_, ?_, ?_⟩
  · simp [parse_and_save_results, write_header_if_needed]
  · simp [parse_and_save_results, write_header_if_needed]
  · rw [List.count_cons_self, List.count_append, count_header_map, count_header_map]

/-- C1 counterexample: batch of one number, results obtained, but the append
to the output file fails (`write_fails = true`): the rows are not persisted
(the file still holds only the header), yet the account's quota is
incremented to 1 — the increment is not skipped. -/
theorem quota_incremented_despite_write_failure :
    process_batch (fun _ => .caught (.errorResult "not found")) true "2026-10-12" "+1"
        120 180 ["+15550001111"] (some [header_row]) [] =
      .ok (some [header_row], [("+1", [("2026-10-12", 1)])]) ∧
    get_account_limit [("+1", [("2026-10-12", 1)])] "2026-10-12" "+1" = 1 ∧
    get_account_limit ([] : Limits) "2026-10-12" "+1" = 0 :=
  ⟨rfl, rfl, rfl⟩

/-- C1 amended: the quota increment is unconditional on persistence: once
`validate_users` returns a nonempty result dict, `main` calls
`parse_and_save_results` — which swallows any write error internally and
reports nothing — and then always increments the account's quota by the
batch length, whether or not the write failed. -/
theorem quota_increment_regardless_of_persistence (look : String → LookupOutcome)
    (write_fails : Bool) (today account_phone : String) (pause_min pause_max : Int)
    (batch : List String) (file : OutFile) (limits : Limits)
    (result_data : List (String × UserData))
    (hok : (validate_users look pause_min pause_max batch).1 = .ok result_data)
    (hne : result_data ≠ []) :
    process_batch look write_fails today account_phone pause_min pause_max
        batch file limits =
      .ok (parse_and_save_results write_fails result_data account_phone file,
        increment_account_limit limits today account_phone (batch.length : Int)) ∧
    get_account_limit
        (increment_account_limit limits today account_phone (batch.length : Int))
        today account_phone =
      get_account_limit limits today account_phone + (batch.length : Int) := by
  constructor
  · unfold process_batch
    have hbool : result_data.isEmpty = false := by
      cases result_data with
      | nil => exact absurd rfl hne
      | cons a l => rfl
    simp only [hok, hbool, Bool.false_eq_true, if_false]
  · exact get_increment_self limits today account_phone (batch.length : Int)

/-- Witness for C1: one batch, failing write: the outcome matches
`parse_and_save_results` with the failing flag and the quota incremented by
the batch length 1. -/
theorem quota_increment_regardless_of_persistence_witness :
    (validate_users (fun _ => .caught (.errorResult "x")) 120 180
        ["+15550001111"]).1 = .ok [("+15550001111", .errorResult "x")] ∧
    ([("+15550001111", UserData.errorResult "x")] : List (String × UserData)) ≠ [] ∧
    process_batch (fun _ => .caught (.errorResult "x")) true "2026-10-12" "+1" 120 180
        ["+15550001111"] none [] =
      .ok (parse_and_save_results true [("+15550001111", .errorResult "x")] "+1" none,
        increment_account_limit [] "2026-10-12" "+1"
          ((["+15550001111"] : List String).length : Int)) := by
  refine ⟨rfl, by decide, ?_⟩
  exact (quota_increment_regardless_of_persistence
    (fun _ => LookupOutcome.caught (.errorResult "x")) true "2026-10-12" "+1" 120 180
    ["+15550001111"] none [] [("+15550001111", UserData.errorResult "x")]
    rfl (by decide)).1

/-- C2 counterexample: a batch of five numbers whose third lookup raises an
exception that escapes batch processing: the two results already collected
are *not* persisted (the output file still holds only the header) and the
quota is incremented by 0 — not by 2 as the claim states. -/
theorem partial_batch_lost_cex :
    process_batch_caught
        (fun q => if q = "+13" then LookupOutcome.escape "Connection lost"
          else .caught (.errorResult "not found"))
        false "2026-10-12" "+1" 120 180 ["+11", "+12", "+13", "+14", "+15"]
        (some [header_row]) [] =
      (some [header_row], []) ∧
    get_account_limit ([] : Limits) "2026-10-12" "+1" = 0 :=
  ⟨rfl, rfl⟩

/-- C2 amended: when an exception escapes `validate_users` partway through a
batch, the results collected so far (a dict local to `validate_users`) are
discarded: `main`'s blanket handler aborts the loop with nothing persisted
for that batch and the quota unchanged — by 0, not by the number of lookups
performed.  (Per-number failures *caught* inside `get_names` never escape;
with them the batch runs to completion and quota rises by the full batch
length.) -/
theorem escaped_batch_discards_partial_results (look : String → LookupOutcome)
    (write_fails : Bool) (today account_phone : String) (pause_min pause_max : Int)
    (batch : List String) (file : OutFile) (limits : Limits) (e : String)
    (h : (validate_users look pause_min pause_max batch).1 = .error e) :
    process_batch_caught look write_fails today account_phone pause_min pause_max
        batch file limits = (file, limits) := by
  unfold process_batch_caught process_batch
  rw [h]

/-- Witness for C2: the five-number batch escaping at the third number
leaves the file and the quota store untouched. -/
theorem escaped_batch_discards_partial_results_witness :
    (validate_users
        (fun q => if q = "+13" then LookupOutcome.escape "Connection lost"
          else .caught (.errorResult "not found")) 120 180
        ["+11", "+12", "+13", "+14", "+15"]).1 = .error "Connection lost" ∧
    process_batch_caught
        (fun q => if q = "+13" then LookupOutcome.escape "Connection lost"
          else .caught (.errorResult "not found"))
        false "2026-10-12" "+1" 120 180 ["+11", "+12", "+13", "+14", "+15"]
        (some [header_row]) [] =
      (some [header_row], []) :=
  ⟨rfl, escaped_batch_discards_partial_results _ false "2026-10-12" "+1" 120 180
    ["+11", "+12", "+13", "+14", "+15"] (some [header_row]) [] "Connection lost" rfl⟩

end PhoneChecker
